import Mathlib

/-!
Verification development for the candle-streaming core of
`demo_async_tkinter_dxlink_streamer_historic_candles.py`.

The numeric candle fields are modelled over the rationals.  A raw upstream
field that the source coerces with `float(...)` is modelled as `Option ℚ`:
`some q` when the coercion succeeds with value `q`, `none` when `float`
raises.  The deduplication and sort key is the millisecond timestamp
`candle.time : Int`; the source maps it through
`datetime.fromtimestamp(candle.time / 1000)`, a strictly monotone injection
for the in-range timestamps this stream carries, so the integer key induces
the same equalities and the same ordering as the datetime key.
-/

/-- Event flag bit from the source: transaction pending. -/
def TX_PENDING : Nat := 1

/-- Event flag bit from the source: remove event. -/
def REMOVE_EVENT : Nat := 2

/-- Event flag bit from the source: snapshot begin. -/
def SNAPSHOT_BEGIN : Nat := 4

/-- Event flag bit from the source: snapshot end. -/
def SNAPSHOT_END : Nat := 8

/-- Event flag bit from the source: snapshot snip. -/
def SNAPSHOT_SNIP : Nat := 16

/-- Event flag bit from the source: snapshot mode. -/
def SNAPSHOT_MODE : Nat := 64

/-- The three flag bits the design treats as diagnostic only. -/
def DIAG_FLAGS : Nat := TX_PENDING ||| SNAPSHOT_SNIP ||| SNAPSHOT_MODE

/-- A raw upstream `Candle` event as the decoder sees it.  Required numeric
fields are `Option ℚ` (`none` when `float(...)` on that field would raise);
the optional fields are `Option (Option ℚ)`: the outer layer is presence
(Python `None` or not), the inner layer is coercibility. -/
structure RawCandle where
  eventSymbol : String
  eventTime : Int
  eventFlags : Nat
  index : Int
  time : Int
  sequence : Int
  count : Int
  open_ : Option ℚ
  high : Option ℚ
  low : Option ℚ
  close : Option ℚ
  volume : Option ℚ
  vwap_ : Option ℚ
  bidVolume : Option (Option ℚ)
  askVolume : Option (Option ℚ)
  impVolatility : Option (Option ℚ)
  openInterest : Option Int
deriving DecidableEq, Repr

/-- One row of the merged dataframe, i.e. the `data_row` dictionary built by
`candle_to_dataframe`. -/
structure DataRow where
  eventSymbol : String
  eventTime : Int
  eventFlags : Nat
  index : Int
  time : Int
  sequence : Int
  count : Int
  open_ : ℚ
  high : ℚ
  low : ℚ
  close : ℚ
  volume : ℚ
  vwap : ℚ
  bidVolume : Option ℚ
  askVolume : Option ℚ
  impVolatility : Option ℚ
  openInterest : Option Int
deriving DecidableEq, Repr

/-- Models `float(x) if x is not None else None` on an optional field:
absence passes through as absence, a present but non-coercible value makes
the whole conversion fail. -/
def coerceOptional : Option (Option ℚ) → Option (Option ℚ)
  | none => some none
  | some none => none
  | some (some q) => some (some q)

/-- The decoder `candle_to_dataframe`: build the single dataframe row,
failing (returning the empty dataframe, modelled as `none`) as soon as any
`float(...)` coercion raises.  The coercions are sequenced in source order. -/
def candle_to_dataframe (c : RawCandle) : Option DataRow :=
  c.open_.bind fun o =>
  c.high.bind fun h =>
  c.low.bind fun l =>
  c.close.bind fun cl =>
  c.volume.bind fun v =>
  c.vwap_.bind fun vw =>
  (coerceOptional c.bidVolume).bind fun bv =>
  (coerceOptional c.askVolume).bind fun av =>
  (coerceOptional c.impVolatility).map fun iv =>
  { eventSymbol := c.eventSymbol
    eventTime := c.eventTime
    eventFlags := c.eventFlags
    index := c.index
    time := c.time
    sequence := c.sequence
    count := c.count
    open_ := o
    high := h
    low := l
    close := cl
    volume := v
    vwap := vw
    bidVolume := bv
    askVolume := av
    impVolatility := iv
    openInterest := c.openInterest }

/-- `df.drop_duplicates(subset=["time"], keep="last")`: keep a row exactly
when no later row carries the same `time` key, preserving positional order
of the kept rows. -/
def dedupKeepLast : List DataRow → List DataRow
  | [] => []
  | r :: rs =>
    if rs.any (fun s => s.time == r.time) then dedupKeepLast rs
    else r :: dedupKeepLast rs

/-- Insert a row into a list ahead of the first row with a larger-or-equal
`time` key. -/
def insertByTime (r : DataRow) : List DataRow → List DataRow
  | [] => [r]
  | s :: ss => if r.time ≤ s.time then r :: s :: ss else s :: insertByTime r ss

/-- `df.sort_values(by=["time"])` as insertion sort on the `time` key.  The
store only ever sorts lists whose `time` keys are pairwise distinct, where
every correct sort produces the same list. -/
def sort_values : List DataRow → List DataRow
  | [] => []
  | r :: rs => insertByTime r (sort_values rs)

/-- One store mutation of the merge step: `pd.concat` appends the new row,
`drop_duplicates(subset=["time"], keep="last")` makes the new row win at its
key, `sort_values(by=["time"])` restores ascending order. -/
def mergeRow (df : List DataRow) (row : DataRow) : List DataRow :=
  sort_values (dedupKeepLast (df ++ [row]))

/-- Running sums with a carried accumulator, i.e. `numpy.cumsum` shifted by
`acc`. -/
def cumsumFrom (acc : ℚ) : List ℚ → List ℚ
  | [] => []
  | x :: xs => (acc + x) :: cumsumFrom (acc + x) xs

/-- `numpy.cumsum`. -/
def cumsum (xs : List ℚ) : List ℚ := cumsumFrom 0 xs

/-- The `periodic_vwap` column of the `vwap` function:
`(p * q).cumsum() / q.cumsum()` with `q` the volumes and `p` the vwaps.
Positions where the cumulative volume is zero divide by zero; numpy yields a
non-finite value (NaN for the reachable 0/0 case) there, modelled as
`none` ("no value"). -/
def periodic_vwap (rows : List DataRow) : List (Option ℚ) :=
  let q := rows.map fun r => r.volume
  let p := rows.map fun r => r.vwap
  List.zipWith (fun n d => if d = 0 then none else some (n / d))
    (cumsum (List.zipWith (fun a b => a * b) p q)) (cumsum q)

/-- The `vwap` function: `df.assign(periodic_vwap=...)`, pairing every row
with its indicator column value. -/
def vwap (rows : List DataRow) : List (DataRow × Option ℚ) :=
  rows.zip (periodic_vwap rows)

/-- The mutable state of the polling loop body: the accumulated dataframe
`df` and the snapshot gate flag `update_graph`. -/
structure StreamState where
  df : List DataRow
  update_graph : Bool
deriving DecidableEq, Repr

/-- State at loop entry: `df = pd.DataFrame()`, `update_graph = False`. -/
def initState : StreamState := { df := [], update_graph := false }

/-- The merge-and-gate part of one successful poll iteration: the two
snapshot-flag checks update `update_graph`, then a non-remove event whose
decode succeeds is merged into `df`. -/
def mergeCandle (st : StreamState) (c : RawCandle) : StreamState :=
  let ug1 := if c.eventFlags &&& SNAPSHOT_BEGIN ≠ 0 then false else st.update_graph
  let ug2 := if c.eventFlags &&& SNAPSHOT_END ≠ 0 then true else ug1
  let df2 :=
    if c.eventFlags &&& REMOVE_EVENT = 0 then
      match candle_to_dataframe c with
      | some row => mergeRow st.df row
      | none => st.df
    else st.df
  { df := df2, update_graph := ug2 }

/-- One successful poll iteration: merge, then publish the series with its
indicator column exactly when `update_graph & (not df.empty)`. -/
def stepEvent (st : StreamState) (c : RawCandle) :
    StreamState × Option (List (DataRow × Option ℚ)) :=
  let s2 := mergeCandle st c
  (s2, if s2.update_graph && !s2.df.isEmpty then some (vwap s2.df) else none)

/-- What one `asyncio.wait_for(streamer.get_event(Candle), timeout=2.0)`
yields: an event, or a timeout. -/
inductive PollResult where
  | event (c : RawCandle)
  | timeout
deriving DecidableEq, Repr

/-- One iteration of the polling loop body: a timeout mutates nothing and
publishes nothing. -/
def step (st : StreamState) : PollResult → StreamState × Option (List (DataRow × Option ℚ))
  | PollResult.event c => stepEvent st c
  | PollResult.timeout => (st, none)

/-- Fold the loop body over a list of poll results, keeping only the state. -/
def runSteps : StreamState → List PollResult → StreamState
  | st, [] => st
  | st, i :: rest => runSteps (step st i).1 rest

/-- The `while self.run` loop: each list entry is the value of the stop flag
read at the top of the iteration paired with the poll result of that
iteration.
Returns the final state and the sequence of published frames. -/
def streamLoop : StreamState → List (Bool × PollResult) →
    StreamState × List (List (DataRow × Option ℚ))
  | st, [] => (st, [])
  | st, (flag, i) :: rest =>
    if flag then
      let s2 := step st i
      let t := streamLoop s2.1 rest
      (t.1, match s2.2 with
            | some fr => fr :: t.2
            | none => t.2)
    else (st, [])

/-- A concrete raw candle with the given flags, time key, volume and vwap;
all other fields fixed, every required field coercible. -/
def mkRaw (flags : Nat) (t : Int) (v p : ℚ) : RawCandle :=
  { eventSymbol := "SPY", eventTime := 0, eventFlags := flags, index := 0,
    time := t, sequence := 0, count := 1, open_ := some 1, high := some 1,
    low := some 1, close := some 1, volume := some v, vwap_ := some p,
    bidVolume := none, askVolume := none, impVolatility := none,
    openInterest := none }

/-- A concrete decoded row with the given time key, volume and vwap. -/
def mkRow (flags : Nat) (t : Int) (v p : ℚ) : DataRow :=
  { eventSymbol := "SPY", eventTime := 0, eventFlags := flags, index := 0,
    time := t, sequence := 0, count := 1, open_ := 1, high := 1,
    low := 1, close := 1, volume := v, vwap := p,
    bidVolume := none, askVolume := none, impVolatility := none,
    openInterest := none }

/-- Sum of the volumes of the rows at positions `0..=i`. -/
def prefVol (rows : List DataRow) (i : Nat) : ℚ :=
  ((rows.take (i + 1)).map fun r => r.volume).sum

/-- Sum of `vwap * volume` over the rows at positions `0..=i`. -/
def prefPV (rows : List DataRow) (i : Nat) : ℚ :=
  ((rows.take (i + 1)).map fun r => r.vwap * r.volume).sum

/-- Forget the stored `eventFlags` field of a row. -/
def scrubFlags (r : DataRow) : DataRow := { r with eventFlags := 0 }

example : candle_to_dataframe (mkRaw 0 5 2 3) = some (mkRow 0 5 2 3) := by decide

example : mergeRow [mkRow 0 5 2 3] (mkRow 0 5 9 9) = [mkRow 0 5 9 9] := by decide

/-- The concrete flag sequence of the gate test: snapshot begin at 100. -/
def cBegin : RawCandle := mkRaw SNAPSHOT_BEGIN 100 1 10

/-- The concrete flag sequence of the gate test: no flags at 200. -/
def cNone : RawCandle := mkRaw 0 200 2 20

/-- The concrete flag sequence of the gate test: snapshot end at 300. -/
def cEnd : RawCandle := mkRaw SNAPSHOT_END 300 3 30

/- ## Helper lemmas -/

theorem mergeCandle_update_graph (st : StreamState) (c : RawCandle) :
    (mergeCandle st c).update_graph =
      if c.eventFlags &&& SNAPSHOT_END ≠ 0 then true
      else if c.eventFlags &&& SNAPSHOT_BEGIN ≠ 0 then false
      else st.update_graph := rfl

theorem mergeCandle_df (st : StreamState) (c : RawCandle) :
    (mergeCandle st c).df =
      if c.eventFlags &&& REMOVE_EVENT = 0 then
        match candle_to_dataframe c with
        | some row => mergeRow st.df row
        | none => st.df
      else st.df := rfl

theorem stepEvent_fst (st : StreamState) (c : RawCandle) :
    (stepEvent st c).1 = mergeCandle st c := rfl

theorem insertByTime_perm (r : DataRow) (l : List DataRow) :
    (insertByTime r l).Perm (r :: l) := by
  induction l with
  | nil => simp [insertByTime]
  | cons s ss ih =>
    by_cases h : r.time ≤ s.time
    · simp [insertByTime, h]
    · simp only [insertByTime, if_neg h]
      exact (ih.cons s).trans (List.Perm.swap r s ss)

theorem sort_values_perm (l : List DataRow) : (sort_values l).Perm l := by
  induction l with
  | nil => simp [sort_values]
  | cons r rs ih => exact (insertByTime_perm r (sort_values rs)).trans (ih.cons r)

theorem dedupKeepLast_cons (r : DataRow) (rs : List DataRow) :
    dedupKeepLast (r :: rs) =
      if rs.any (fun s => s.time == r.time) then dedupKeepLast rs
      else r :: dedupKeepLast rs := rfl

theorem dedup_filter_append (df : List DataRow) (row : DataRow) :
    (dedupKeepLast (df ++ [row])).filter (fun s => s.time == row.time) = [row] := by
  induction df with
  | nil => simp [dedupKeepLast]
  | cons r df ih =>
    rw [List.cons_append, dedupKeepLast_cons]
    by_cases h : (df ++ [row]).any (fun s => s.time == r.time)
    · rw [if_pos h]
      exact ih
    · rw [if_neg h]
      have hne : ¬ (r.time == row.time) = true := by
        rw [beq_iff_eq]
        intro he
        refine h (List.any_eq_true.mpr ⟨row, by simp, ?_⟩)
        rw [beq_iff_eq]
        exact he.symm
      rw [List.filter_cons, if_neg hne]
      exact ih

theorem mergeRow_filter (df : List DataRow) (row : DataRow) :
    (mergeRow df row).filter (fun s => s.time == row.time) = [row] := by
  have hperm :=
    (sort_values_perm (dedupKeepLast (df ++ [row]))).filter
      (fun s => s.time == row.time)
  rw [dedup_filter_append df row] at hperm
  exact List.perm_singleton.mp hperm

/-- The ordering invariant of the store: strictly ascending `time` keys. -/
def sortedByTime (l : List DataRow) : Prop :=
  l.Pairwise fun a b => a.time < b.time

theorem insertByTime_sorted (r : DataRow) (l : List DataRow)
    (h : l.Pairwise fun a b => a.time ≤ b.time) :
    (insertByTime r l).Pairwise fun a b => a.time ≤ b.time := by
  induction l with
  | nil => simp [insertByTime]
  | cons s ss ih =>
    rcases List.pairwise_cons.mp h with ⟨hs, hss⟩
    by_cases hle : r.time ≤ s.time
    · simp only [insertByTime, if_pos hle]
      refine List.pairwise_cons.mpr ⟨?_, h⟩
      intro x hx
      rcases List.mem_cons.mp hx with rfl | hx
      · exact hle
      · exact le_trans hle (hs x hx)
    · simp only [insertByTime, if_neg hle]
      refine List.pairwise_cons.mpr ⟨?_, ih hss⟩
      intro x hx
      rcases List.mem_cons.mp ((insertByTime_perm r ss).mem_iff.mp hx) with rfl | hx
      · exact le_of_not_le hle
      · exact hs x hx

theorem sort_values_sorted (l : List DataRow) :
    (sort_values l).Pairwise fun a b => a.time ≤ b.time := by
  induction l with
  | nil => simp [sort_values]
  | cons r rs ih => exact insertByTime_sorted r (sort_values rs) ih

theorem dedupKeepLast_sublist (l : List DataRow) :
    (dedupKeepLast l).Sublist l := by
  induction l with
  | nil => simp [dedupKeepLast]
  | cons r rs ih =>
    by_cases h : rs.any (fun s => s.time == r.time)
    · simp only [dedupKeepLast, if_pos h]
      exact ih.cons r
    · simp only [dedupKeepLast, if_neg h]
      exact ih.cons₂ r

theorem dedupKeepLast_pairwise_ne (l : List DataRow) :
    (dedupKeepLast l).Pairwise fun a b => a.time ≠ b.time := by
  induction l with
  | nil => simp [dedupKeepLast]
  | cons r rs ih =>
    by_cases h : rs.any (fun s => s.time == r.time)
    · simpa only [dedupKeepLast, if_pos h] using ih
    · simp only [dedupKeepLast, if_neg h]
      refine List.pairwise_cons.mpr ⟨?_, ih⟩
      intro x hx he
      refine h (List.any_eq_true.mpr ⟨x, (dedupKeepLast_sublist rs).subset hx, ?_⟩)
      rw [beq_iff_eq]
      exact he.symm

theorem mergeRow_sortedByTime (df : List DataRow) (row : DataRow) :
    sortedByTime (mergeRow df row) := by
  have hle : (mergeRow df row).Pairwise fun a b => a.time ≤ b.time :=
    sort_values_sorted _
  have hperm := sort_values_perm (dedupKeepLast (df ++ [row]))
  have hne : (mergeRow df row).Pairwise fun a b => a.time ≠ b.time :=
    (hperm.pairwise_iff fun hx => hx.symm).mpr (dedupKeepLast_pairwise_ne _)
  exact (hle.and hne).imp fun h => lt_of_le_of_ne h.1 h.2

theorem step_sortedByTime (st : StreamState) (i : PollResult)
    (h : sortedByTime st.df) : sortedByTime ((step st i).1).df := by
  cases i with
  | timeout => exact h
  | event c =>
    show sortedByTime (mergeCandle st c).df
    rw [mergeCandle_df]
    by_cases hrem : c.eventFlags &&& REMOVE_EVENT = 0
    · rw [if_pos hrem]
      cases hdec : candle_to_dataframe c with
      | none => exact h
      | some row => exact mergeRow_sortedByTime st.df row
    · rw [if_neg hrem]
      exact h

theorem runSteps_sortedByTime (inputs : List PollResult) :
    ∀ st : StreamState, sortedByTime st.df →
      sortedByTime (runSteps st inputs).df := by
  induction inputs with
  | nil => intro st h; exact h
  | cons i rest ih => intro st h; exact ih _ (step_sortedByTime st i h)

theorem cumsumFrom_getElem (xs : List ℚ) :
    ∀ (i : Nat) (a : ℚ), i < xs.length →
      (cumsumFrom a xs)[i]? = some (a + (xs.take (i + 1)).sum) := by
  induction xs with
  | nil => intro i a h; simp at h
  | cons x xs ih =>
    intro i a h
    cases i with
    | zero => simp [cumsumFrom]
    | succ i =>
      have h2 : i < xs.length := by simpa using h
      rw [show cumsumFrom a (x :: xs) = (a + x) :: cumsumFrom (a + x) xs from rfl,
        List.getElem?_cons_succ, ih i (a + x) h2, List.take_succ_cons,
        List.sum_cons, add_assoc]

theorem zipWith_getElem_some {α β γ : Type} (f : α → β → γ) :
    ∀ (l1 : List α) (l2 : List β) (i : Nat) (a : α) (b : β),
      l1[i]? = some a → l2[i]? = some b →
      (List.zipWith f l1 l2)[i]? = some (f a b) := by
  intro l1
  induction l1 with
  | nil => intro l2 i a b h1 h2; simp at h1
  | cons x l1 ih =>
    intro l2 i a b h1 h2
    cases l2 with
    | nil => simp at h2
    | cons y l2 =>
      cases i with
      | zero =>
        simp only [List.getElem?_cons_zero, Option.some.injEq] at h1 h2
        subst h1
        subst h2
        simp [List.zipWith]
      | succ i =>
        simp only [List.getElem?_cons_succ] at h1 h2
        simpa using ih l2 i a b h1 h2

theorem zipWith_map_same {α β γ δ : Type} (f : β → γ → δ) (g : α → β) (h : α → γ)
    (l : List α) :
    List.zipWith f (l.map g) (l.map h) = l.map fun x => f (g x) (h x) := by
  induction l with
  | nil => rfl
  | cons x l ih => simp [ih]

theorem periodic_vwap_getElem (rows : List DataRow) (i : Nat)
    (h : i < rows.length) :
    (periodic_vwap rows)[i]? =
      some (if prefVol rows i = 0 then none
            else some (prefPV rows i / prefVol rows i)) := by
  have hq : (cumsum (rows.map fun r => r.volume))[i]? = some (prefVol rows i) := by
    have hc := cumsumFrom_getElem (rows.map fun r => r.volume) i 0
      (by simpa using h)
    rw [cumsum, hc, zero_add, prefVol, List.map_take]
  have hpq : (cumsum (List.zipWith (fun a b => a * b)
      (rows.map fun r => r.vwap) (rows.map fun r => r.volume)))[i]?
        = some (prefPV rows i) := by
    rw [zipWith_map_same]
    have hc := cumsumFrom_getElem (rows.map fun r => r.vwap * r.volume) i 0
      (by simpa using h)
    rw [cumsum, hc, zero_add, prefPV, List.map_take]
  exact zipWith_getElem_some _ _ _ i _ _ hpq hq

/- ## C5: indicator formula -/

/-- C5: at every position whose cumulative volume is nonzero, the indicator
column equals the sum of `vwap * volume` over positions `0..=i` divided by
the sum of `volume` over positions `0..=i`, recomputed from the full series;
in particular, for volumes 1, 2, 3 and vwaps 10, 20, 30 in time order, the
last position carries `(1*10 + 2*20 + 3*30) / (1 + 2 + 3) = 70 / 3`. -/
theorem c5_indicator_formula :
    (∀ (rows : List DataRow) (i : Nat), i < rows.length → prefVol rows i ≠ 0 →
      (periodic_vwap rows)[i]? = some (some (prefPV rows i / prefVol rows i))) ∧
    (periodic_vwap [mkRow 0 1 1 10, mkRow 0 2 2 20, mkRow 0 3 3 30])[2]?
      = some (some (70 / 3)) := by
  have hgen : ∀ (rows : List DataRow) (i : Nat), i < rows.length →
      prefVol rows i ≠ 0 →
      (periodic_vwap rows)[i]? = some (some (prefPV rows i / prefVol rows i)) := by
    intro rows i h hv
    rw [periodic_vwap_getElem rows i h, if_neg hv]
  refine ⟨hgen, ?_⟩
  rw [hgen [mkRow 0 1 1 10, mkRow 0 2 2 20, mkRow 0 3 3 30] 2 (by norm_num)
    (by norm_num [prefVol, mkRow])]
  norm_num [prefPV, prefVol, mkRow]

/-- C5 witness: the general formula applied to the concrete three-candle
series of the claim. -/
theorem c5_indicator_formula_witness :
    (periodic_vwap [mkRow 0 1 1 10, mkRow 0 2 2 20, mkRow 0 3 3 30])[2]? =
      some (some (prefPV [mkRow 0 1 1 10, mkRow 0 2 2 20, mkRow 0 3 3 30] 2 /
                  prefVol [mkRow 0 1 1 10, mkRow 0 2 2 20, mkRow 0 3 3 30] 2)) :=
  c5_indicator_formula.1 [mkRow 0 1 1 10, mkRow 0 2 2 20, mkRow 0 3 3 30] 2
    (by norm_num) (by norm_num [prefVol, mkRow])

/- ## C6: zero cumulative volume -/

/-- C6: the indicator recompute never fails as a whole: a position with zero
cumulative volume gets "no value" (the division-by-zero position is mapped
to `none`), and a position with positive cumulative volume still gets its
cumulative volume-weighted average. -/
theorem c6_zero_volume_no_value (rows : List DataRow) (i : Nat)
    (h : i < rows.length) :
    (prefVol rows i = 0 → (periodic_vwap rows)[i]? = some none) ∧
    (0 < prefVol rows i →
      (periodic_vwap rows)[i]? = some (some (prefPV rows i / prefVol rows i))) := by
  constructor
  · intro hv
    rw [periodic_vwap_getElem rows i h, if_pos hv]
  · intro hv
    rw [periodic_vwap_getElem rows i h, if_neg (ne_of_gt hv)]

/-- C6 witness: a concrete one-candle series of volume zero reports "no
value" at its only position. -/
theorem c6_zero_volume_no_value_witness :
    (periodic_vwap [mkRow 0 1 0 10])[0]? = some none :=
  (c6_zero_volume_no_value [mkRow 0 1 0 10] 0 (by norm_num)).1
    (by norm_num [prefVol, mkRow])

/- ## C7: decode failure discards the whole record -/

theorem option_bind_const_none {α β : Type} (x : Option α) :
    (x.bind fun _ => (none : Option β)) = none := by cases x <;> rfl

/-- C7: when any required numeric field of a raw event is not coercible,
the decode of the whole record fails (`none`), and the merge step of that
iteration leaves the store exactly as it was; the loop body stays a total
function, so the failure is never fatal. -/
theorem c7_decode_failure_discards (st : StreamState) (c : RawCandle)
    (h : c.open_ = none ∨ c.high = none ∨ c.low = none ∨ c.close = none ∨
         c.volume = none ∨ c.vwap_ = none) :
    candle_to_dataframe c = none ∧ (stepEvent st c).1.df = st.df := by
  have hdec : candle_to_dataframe c = none := by
    rcases h with h | h | h | h | h | h <;>
      simp [candle_to_dataframe, h, option_bind_const_none]
  refine ⟨hdec, ?_⟩
  rw [stepEvent_fst, mergeCandle_df, hdec]
  simp

/-- C7 witness: a concrete raw event whose `close` cannot be coerced is
discarded whole and leaves the initial store empty. -/
theorem c7_decode_failure_discards_witness :
    candle_to_dataframe { mkRaw 0 100 1 10 with close := none } = none ∧
    (stepEvent initState { mkRaw 0 100 1 10 with close := none }).1.df =
      initState.df :=
  c7_decode_failure_discards initState { mkRaw 0 100 1 10 with close := none }
    (by decide)

/- ## C1: tombstone -/

/-- C1: refuted as stated.  The source skips a REMOVE-flagged candle rather
than deleting the stored entry at its key: with a record already stored at
time 100, merging a REMOVE-flagged record with time 100 leaves an entry at
key 100, while the claim says there is none. -/
theorem c1_remove_deletes_counterexample :
    (mkRaw REMOVE_EVENT 100 5 5).eventFlags &&& REMOVE_EVENT ≠ 0 ∧
    (mkRaw REMOVE_EVENT 100 5 5).time = 100 ∧
    (mergeCandle { df := [mkRow 0 100 1 10], update_graph := false }
        (mkRaw REMOVE_EVENT 100 5 5)).df.filter (fun s => s.time == (100 : Int))
      ≠ [] := by decide

/-- C1 amended: for every record with the REMOVE flag set, the merge step
leaves the store completely unchanged — the record is never inserted, and a
pre-existing entry at its key is retained, not deleted. -/
theorem c1_remove_noop (st : StreamState) (c : RawCandle)
    (h : c.eventFlags &&& REMOVE_EVENT ≠ 0) :
    (mergeCandle st c).df = st.df := by
  rw [mergeCandle_df, if_neg h]

/-- C1 witness: the amended no-op theorem at the concrete counterexample
input. -/
theorem c1_remove_noop_witness :
    (mergeCandle { df := [mkRow 0 100 1 10], update_graph := false }
        (mkRaw REMOVE_EVENT 100 5 5)).df = [mkRow 0 100 1 10] :=
  c1_remove_noop { df := [mkRow 0 100 1 10], update_graph := false }
    (mkRaw REMOVE_EVENT 100 5 5) (by decide)

/- ## C2: last-write-wins insert/overwrite -/

/-- C2: merging a decoded record without the REMOVE flag inserts or
overwrites the entry at its time key with the record in full: afterwards the
store holds exactly one record at that key and it is the merged record; in
consequence, merging two non-removed records with the same time key (in
particular ones that differ in `close`) leaves exactly one record at that
key, equal to the second-merged one, whatever else the store holds. -/
theorem c2_last_write_wins :
    (∀ (st : StreamState) (c : RawCandle) (row : DataRow),
        c.eventFlags &&& REMOVE_EVENT = 0 →
        candle_to_dataframe c = some row →
        (mergeCandle st c).df.filter (fun s => s.time == row.time) = [row]) ∧
    (∀ (df : List DataRow) (r1 r2 : DataRow),
        r1.time = r2.time → r1.close ≠ r2.close →
        (mergeRow (mergeRow df r1) r2).filter (fun s => s.time == r2.time)
          = [r2]) := by
  constructor
  · intro st c row hrem hdec
    rw [mergeCandle_df, if_pos hrem, hdec]
    exact mergeRow_filter st.df row
  · intro df r1 r2 hteq hclose
    exact mergeRow_filter (mergeRow df r1) r2

/-- C2 witness: a concrete non-removed record overwrites the concrete store
entry at its key. -/
theorem c2_last_write_wins_witness :
    (mergeCandle { df := [mkRow 0 100 1 10], update_graph := false }
        (mkRaw 0 100 2 20)).df.filter
      (fun s => s.time == (mkRow 0 100 2 20).time) = [mkRow 0 100 2 20] :=
  c2_last_write_wins.1 { df := [mkRow 0 100 1 10], update_graph := false }
    (mkRaw 0 100 2 20) (mkRow 0 100 2 20) (by decide) (by decide)

/- ## C3: strict ascending order invariant -/

/-- C3: starting from the empty store, after any sequence of loop
iterations — inserts, overwrites, removes, decode failures, timeouts — the
store iterates strictly ascending by time with no duplicate keys; since the
final state after any leading subsequence is itself of this form, the
invariant holds
after every single mutation. -/
theorem c3_strict_ascending (inputs : List PollResult) :
    sortedByTime (runSteps initState inputs).df :=
  runSteps_sortedByTime inputs initState (by simp [initState, sortedByTime])

/- ## C10: simultaneous BEGIN and END -/

/-- C10: a record carrying both SNAPSHOT_BEGIN and SNAPSHOT_END leaves the
gate Publishable (`update_graph = true`) whatever its prior state, because
the source checks BEGIN before END. -/
theorem c10_begin_end_precedence (st : StreamState) (c : RawCandle)
    (hb : c.eventFlags &&& SNAPSHOT_BEGIN ≠ 0)
    (he : c.eventFlags &&& SNAPSHOT_END ≠ 0) :
    (mergeCandle st c).update_graph = true := by
  rw [mergeCandle_update_graph, if_pos he]

/-- C10 witness: both snapshot bits set on a concrete record, from a
Suppressed gate. -/
theorem c10_begin_end_precedence_witness :
    (mergeCandle initState
        (mkRaw (SNAPSHOT_BEGIN ||| SNAPSHOT_END) 100 1 10)).update_graph = true :=
  c10_begin_end_precedence initState
    (mkRaw (SNAPSHOT_BEGIN ||| SNAPSHOT_END) 100 1 10) (by decide) (by decide)

/- ## C8: timeout iterations are pure no-ops -/

/-- C8: a timed-out poll iteration mutates nothing and publishes nothing:
the loop-body step on a timeout returns the state unchanged with no
published frame; any run of consecutive timeout iterations is dropped from
the loop without effect; and an iteration that reads the stop flag as false
exits at once with the state it entered with. -/
theorem c8_timeout_no_mutation :
    (∀ st : StreamState, step st PollResult.timeout = (st, none)) ∧
    (∀ (st : StreamState) (n : Nat) (rest : List (Bool × PollResult)),
      streamLoop st (List.replicate n (true, PollResult.timeout) ++ rest) =
        streamLoop st rest) ∧
    (∀ (st : StreamState) (p : PollResult) (rest : List (Bool × PollResult)),
      streamLoop st ((false, p) :: rest) = (st, [])) := by
  refine ⟨fun st => rfl, ?_, fun st p rest => rfl⟩
  intro st n rest
  induction n with
  | zero => rfl
  | succ n ih => simpa [List.replicate_succ, streamLoop, step] using ih

/- ## C4: snapshot gate -/

/-- C4: the snapshot gate starts Suppressed (`update_graph = false`);
SNAPSHOT_END drives it to Publishable, SNAPSHOT_BEGIN (without END) to
Suppressed, and records with neither bit leave it unchanged; the store
mutation does not depend on the gate state; a publish happens on a
successful iteration exactly when the post-merge gate is Publishable and
the store is nonempty; on the concrete flag sequence BEGIN, none, END at
times 100 < 200 < 300 nothing is published before the END record and the
single published frame contains all three rows; and after a BEGIN, any run
of records with neither snapshot bit keeps the gate Suppressed. -/
theorem c4_snapshot_gate :
    (initState.update_graph = false) ∧
    (∀ (st : StreamState) (c : RawCandle), c.eventFlags &&& SNAPSHOT_END ≠ 0 →
      (mergeCandle st c).update_graph = true) ∧
    (∀ (st : StreamState) (c : RawCandle), c.eventFlags &&& SNAPSHOT_BEGIN ≠ 0 →
      c.eventFlags &&& SNAPSHOT_END = 0 →
      (mergeCandle st c).update_graph = false) ∧
    (∀ (st : StreamState) (c : RawCandle), c.eventFlags &&& SNAPSHOT_BEGIN = 0 →
      c.eventFlags &&& SNAPSHOT_END = 0 →
      (mergeCandle st c).update_graph = st.update_graph) ∧
    (∀ (df : List DataRow) (b : Bool) (c : RawCandle),
      (mergeCandle { df := df, update_graph := b } c).df =
        (mergeCandle { df := df, update_graph := false } c).df) ∧
    (∀ (st : StreamState) (c : RawCandle),
      (stepEvent st c).2.isSome =
        ((mergeCandle st c).update_graph && !(mergeCandle st c).df.isEmpty)) ∧
    ((streamLoop initState
        [(true, PollResult.event cBegin), (true, PollResult.event cNone)]).2 = []) ∧
    ((streamLoop initState
        [(true, PollResult.event cBegin), (true, PollResult.event cNone),
         (true, PollResult.event cEnd)]).2.map
        (fun fr => fr.map fun x => x.1.time) = [[100, 200, 300]]) ∧
    (∀ cs : List RawCandle,
      (∀ c ∈ cs, c.eventFlags &&& SNAPSHOT_BEGIN = 0 ∧
                 c.eventFlags &&& SNAPSHOT_END = 0) →
      ∀ st : StreamState, st.update_graph = false →
      (runSteps st (cs.map PollResult.event)).update_graph = false) := by
  refine ⟨rfl, ?_, ?_, ?_, ?_, ?_, by decide, by decide, ?_⟩
  · intro st c he
    rw [mergeCandle_update_graph, if_pos he]
  · intro st c hb he
    rw [mergeCandle_update_graph, if_neg (by simpa using he), if_pos hb]
  · intro st c hb he
    rw [mergeCandle_update_graph, if_neg (by simpa using he),
      if_neg (by simpa using hb)]
  · intro df b c
    rfl
  · intro st c
    show (if (mergeCandle st c).update_graph && !(mergeCandle st c).df.isEmpty
          then some (vwap (mergeCandle st c).df) else none).isSome = _
    split <;> simp_all
  · intro cs
    induction cs with
    | nil => intro hcs st h; simpa [runSteps] using h
    | cons c cs ih =>
      intro hcs st h
      have hc := hcs c (List.mem_cons_self c cs)
      have hrest : ∀ x ∈ cs, x.eventFlags &&& SNAPSHOT_BEGIN = 0 ∧
          x.eventFlags &&& SNAPSHOT_END = 0 :=
        fun x hx => hcs x (List.mem_cons_of_mem c hx)
      have hstep : ((step st (PollResult.event c)).1).update_graph = false := by
        rw [show (step st (PollResult.event c)).1 = mergeCandle st c from rfl,
          mergeCandle_update_graph, if_neg (by simpa using hc.2),
          if_neg (by simpa using hc.1)]
        exact h
      simpa [runSteps] using ih hrest (step st (PollResult.event c)).1 hstep

/- ## C9: diagnostic flag bits -/

theorem and_mask_congr (a b m k : Nat) (h : a ||| m = b ||| m)
    (hk : k &&& m = 0) : a &&& k = b &&& k := by
  apply Nat.eq_of_testBit_eq
  intro i
  have hcong := congrArg (fun n => n.testBit i) h
  simp only [Nat.testBit_or] at hcong
  simp only [Nat.testBit_and]
  cases hki : k.testBit i with
  | false => simp
  | true =>
    have hmi : m.testBit i = false := by
      have hz := congrArg (fun n => n.testBit i) hk
      simp only [Nat.testBit_and, Nat.zero_testBit] at hz
      simpa [hki] using hz
    rw [hmi, Bool.or_false, Bool.or_false] at hcong
    rw [hcong]

theorem option_map_bind {α β γ : Type} (f : β → γ) (x : Option α)
    (g : α → Option β) :
    Option.map f (x.bind g) = x.bind fun a => Option.map f (g a) := by
  cases x <;> rfl

theorem decode_map_scrub (c1 c2 : RawCandle)
    (hfields : { c1 with eventFlags := 0 } = { c2 with eventFlags := 0 }) :
    Option.map scrubFlags (candle_to_dataframe c1) =
      Option.map scrubFlags (candle_to_dataframe c2) := by
  obtain ⟨s1, et1, f1, i1, t1, sq1, ct1, o1, h1, l1, cl1, v1, vw1, bv1, av1, iv1, oi1⟩ := c1
  obtain ⟨s2, et2, f2, i2, t2, sq2, ct2, o2, h2, l2, cl2, v2, vw2, bv2, av2, iv2, oi2⟩ := c2
  simp only [RawCandle.mk.injEq] at hfields
  obtain ⟨rfl, rfl, -, rfl, rfl, rfl, rfl, rfl, rfl, rfl, rfl, rfl, rfl, rfl, rfl, rfl, rfl⟩ :=
    hfields
  simp only [candle_to_dataframe, option_map_bind, Option.map_map]
  rfl

theorem scrubFlags_time (r : DataRow) : (scrubFlags r).time = r.time := rfl

theorem dedup_map_scrub (l : List DataRow) :
    dedupKeepLast (l.map scrubFlags) = (dedupKeepLast l).map scrubFlags := by
  induction l with
  | nil => rfl
  | cons r rs ih =>
    rw [List.map_cons, dedupKeepLast_cons, dedupKeepLast_cons, List.any_map]
    have hpred : ((fun s => s.time == (scrubFlags r).time) ∘ scrubFlags) =
        fun s => s.time == r.time := rfl
    rw [hpred]
    by_cases h : rs.any (fun s => s.time == r.time)
    · rw [if_pos h, if_pos h, ih]
    · rw [if_neg h, if_neg h, List.map_cons, ih]

theorem insertByTime_cons (r s : DataRow) (ss : List DataRow) :
    insertByTime r (s :: ss) =
      if r.time ≤ s.time then r :: s :: ss else s :: insertByTime r ss := rfl

theorem insert_map_scrub (r : DataRow) (l : List DataRow) :
    insertByTime (scrubFlags r) (l.map scrubFlags) =
      (insertByTime r l).map scrubFlags := by
  induction l with
  | nil => rfl
  | cons s ss ih =>
    rw [List.map_cons, insertByTime_cons, insertByTime_cons, scrubFlags_time,
      scrubFlags_time]
    by_cases h : r.time ≤ s.time
    · rw [if_pos h, if_pos h, List.map_cons, List.map_cons]
    · rw [if_neg h, if_neg h, List.map_cons, ih]

theorem sort_map_scrub (l : List DataRow) :
    sort_values (l.map scrubFlags) = (sort_values l).map scrubFlags := by
  induction l with
  | nil => rfl
  | cons r rs ih =>
    rw [List.map_cons]
    show insertByTime (scrubFlags r) (sort_values (rs.map scrubFlags)) = _
    rw [ih, insert_map_scrub]
    rfl

theorem mergeRow_map_scrub (df : List DataRow) (row : DataRow) :
    (mergeRow df row).map scrubFlags =
      mergeRow (df.map scrubFlags) (scrubFlags row) := by
  rw [mergeRow, mergeRow, ← sort_map_scrub, ← dedup_map_scrub, List.map_append]
  rfl

theorem stepEvent_snd (st : StreamState) (c : RawCandle) :
    (stepEvent st c).2 =
      if (mergeCandle st c).update_graph && !(mergeCandle st c).df.isEmpty
      then some (vwap (mergeCandle st c).df) else none := rfl

/-- C9: refuted as stated.  Two records that differ only in the TX_PENDING
bit (a diagnostic bit) do not yield identical store contents: the stored row
keeps the raw `eventFlags` field, so the two stores differ in that field. -/
theorem c9_diag_flags_counterexample :
    ({ mkRaw 0 100 1 10 with eventFlags := 0 } =
        { mkRaw TX_PENDING 100 1 10 with eventFlags := 0 }) ∧
    ((mkRaw 0 100 1 10).eventFlags ||| DIAG_FLAGS =
        (mkRaw TX_PENDING 100 1 10).eventFlags ||| DIAG_FLAGS) ∧
    (stepEvent initState (mkRaw 0 100 1 10)).1.df ≠
      (stepEvent initState (mkRaw TX_PENDING 100 1 10)).1.df := by decide

/-- C9 amended: two records that agree on every field except possibly the
TX_PENDING, SNAPSHOT_SNIP and SNAPSHOT_MODE bits of their flags, processed
from the same state, yield the same gate state, the same publish decision,
and stores identical except for the stored `eventFlags` field of the merged
row (which retains the differing diagnostic bits). -/
theorem c9_diag_flags_irrelevant (st : StreamState) (c1 c2 : RawCandle)
    (hfields : { c1 with eventFlags := 0 } = { c2 with eventFlags := 0 })
    (hflags : c1.eventFlags ||| DIAG_FLAGS = c2.eventFlags ||| DIAG_FLAGS) :
    ((stepEvent st c1).1.update_graph = (stepEvent st c2).1.update_graph) ∧
    ((stepEvent st c1).1.df.map scrubFlags =
      (stepEvent st c2).1.df.map scrubFlags) ∧
    ((stepEvent st c1).2.isSome = (stepEvent st c2).2.isSome) := by
  have hb : c1.eventFlags &&& SNAPSHOT_BEGIN = c2.eventFlags &&& SNAPSHOT_BEGIN :=
    and_mask_congr _ _ _ _ hflags (by decide)
  have he : c1.eventFlags &&& SNAPSHOT_END = c2.eventFlags &&& SNAPSHOT_END :=
    and_mask_congr _ _ _ _ hflags (by decide)
  have hr : c1.eventFlags &&& REMOVE_EVENT = c2.eventFlags &&& REMOVE_EVENT :=
    and_mask_congr _ _ _ _ hflags (by decide)
  have hug : (mergeCandle st c1).update_graph = (mergeCandle st c2).update_graph := by
    rw [mergeCandle_update_graph, mergeCandle_update_graph, hb, he]
  have hdf : (mergeCandle st c1).df.map scrubFlags =
      (mergeCandle st c2).df.map scrubFlags := by
    rw [mergeCandle_df, mergeCandle_df, hr]
    by_cases hrem : c2.eventFlags &&& REMOVE_EVENT = 0
    · rw [if_pos hrem, if_pos hrem]
      have hdec := decode_map_scrub c1 c2 hfields
      cases hd1 : candle_to_dataframe c1 with
      | none =>
        cases hd2 : candle_to_dataframe c2 with
        | none => rfl
        | some r2 => rw [hd1, hd2] at hdec; simp at hdec
      | some r1 =>
        cases hd2 : candle_to_dataframe c2 with
        | none => rw [hd1, hd2] at hdec; simp at hdec
        | some r2 =>
          rw [hd1, hd2] at hdec
          simp only [Option.map_some', Option.some.injEq] at hdec
          show (mergeRow st.df r1).map scrubFlags = (mergeRow st.df r2).map scrubFlags
          rw [mergeRow_map_scrub, mergeRow_map_scrub, hdec]
    · rw [if_neg hrem, if_neg hrem]
  have hemp : (mergeCandle st c1).df.isEmpty = (mergeCandle st c2).df.isEmpty := by
    cases h1 : (mergeCandle st c1).df with
    | nil =>
      cases h2 : (mergeCandle st c2).df with
      | nil => rfl
      | cons b m => rw [h1, h2] at hdf; simp at hdf
    | cons a l =>
      cases h2 : (mergeCandle st c2).df with
      | nil => rw [h1, h2] at hdf; simp at hdf
      | cons b m => rfl
  refine ⟨hug, hdf, ?_⟩
  rw [stepEvent_snd, stepEvent_snd, hug, hemp]
  by_cases hc : ((mergeCandle st c2).update_graph &&
      !(mergeCandle st c2).df.isEmpty) = true
  · rw [if_pos hc, if_pos hc]
    rfl
  · rw [if_neg hc, if_neg hc]

/-- C9 witness: the amended theorem at the two concrete records of the
counterexample, which differ exactly in TX_PENDING. -/
theorem c9_diag_flags_witness :
    ((stepEvent initState (mkRaw 0 100 1 10)).1.update_graph =
      (stepEvent initState (mkRaw TX_PENDING 100 1 10)).1.update_graph) ∧
    ((stepEvent initState (mkRaw 0 100 1 10)).1.df.map scrubFlags =
      (stepEvent initState (mkRaw TX_PENDING 100 1 10)).1.df.map scrubFlags) ∧
    ((stepEvent initState (mkRaw 0 100 1 10)).2.isSome =
      (stepEvent initState (mkRaw TX_PENDING 100 1 10)).2.isSome) :=
  c9_diag_flags_irrelevant initState (mkRaw 0 100 1 10)
    (mkRaw TX_PENDING 100 1 10) (by decide) (by decide)

/-- C4 witness: the gate-persistence clause at a concrete two-record
unflagged batch from the initial state. -/
theorem c4_snapshot_gate_witness :
    (runSteps initState
      ([mkRaw 0 100 1 10, mkRaw TX_PENDING 200 2 20].map PollResult.event)).update_graph
      = false :=
  c4_snapshot_gate.2.2.2.2.2.2.2.2
    [mkRaw 0 100 1 10, mkRaw TX_PENDING 200 2 20] (by decide) initState rfl
